import Mathlib

/-!
# Verification of the GEDCOM-to-PDF core (parser and generation builder)

Shallow embedding of `gedcom_to_pdf.py`: the line-oriented GEDCOM record
parser (`parse_gedcom`) and the ancestor generation builder
(`build_generations`).  Python dictionaries keyed by strings are embedded as
association lists with insert-or-replace semantics (which matches Python
dict assignment: an existing key keeps its position, a new key is appended),
and the event dictionaries, whose keys are only ever the fixed literals
`birth_date`, `birth_place`, `death_date`, `death_place` (individuals) and
`marriage_date`, `marriage_place` (families), are embedded as structures of
`Option String` fields (`none` = key absent).
-/

set_option autoImplicit false

namespace Gedcom

/-- The set of characters stripped by Python `str.strip()` with no
arguments (ASCII whitespace). -/
def pyIsSpace (c : Char) : Bool :=
  c = ' ' || c = '\t' || c = '\n' || c = '\x0d' || c = '\x0b' || c = '\x0c'

/-- Python `str.strip()` on a character list: remove leading and trailing
whitespace. -/
def pyStripL (l : List Char) : List Char :=
  ((l.dropWhile pyIsSpace).reverse.dropWhile pyIsSpace).reverse

/-- Split a character list at the first occurrence of a space character,
returning the part before and the part after; `none` when there is no
space.  This is the elementary step of Python `str.split(" ", maxsplit)`
with the explicit single-space separator. -/
def splitAtSpace : List Char → Option (List Char × List Char)
  | [] => none
  | c :: cs =>
    if c = ' ' then some ([], cs)
    else
      match splitAtSpace cs with
      | none => none
      | some (a, b) => some (c :: a, b)

/-- Python `s.split(" ", 2)`: split on the literal single-space separator at
most twice; consecutive separators yield empty fields, and the third field
keeps its embedded spaces. -/
def pySplit2 (s : List Char) : List (List Char) :=
  match splitAtSpace s with
  | none => [s]
  | some (a, rest) =>
    match splitAtSpace rest with
    | none => [a, rest]
    | some (b, rest2) => [a, b, rest2]

/-- Tokenization applied to every input line by the parser:
`line.strip().split(" ", 2)`. -/
def tokenizeLine (line : String) : List (List Char) :=
  pySplit2 (pyStripL line.data)

/-- Python `tag.startswith("@")` specialised to a single character. -/
def startsWithChar (s : String) (c : Char) : Bool :=
  match s.data with
  | [] => false
  | a :: _ => a = c

/-- `clean_id` from the source: remove all surrounding `@` characters from a
GEDCOM id (Python `record_id.strip("@")`), except that a falsy (empty)
input is returned unchanged. -/
def clean_id (record_id : String) : String :=
  if record_id = "" then record_id
  else ⟨((record_id.data.dropWhile (fun c => c = '@')).reverse.dropWhile
          (fun c => c = '@')).reverse⟩

/-- Event dictionary of an `INDI` record; the source only ever uses the four
keys embedded here as `Option` fields. -/
structure IndiEvents where
  birth_date : Option String := none
  birth_place : Option String := none
  death_date : Option String := none
  death_place : Option String := none
  deriving DecidableEq, Repr

/-- Event dictionary of a `FAM` record; the source only ever uses the two
keys embedded here as `Option` fields. -/
structure FamEvents where
  marriage_date : Option String := none
  marriage_place : Option String := none
  deriving DecidableEq, Repr

/-- The per-individual record built by the parser
(`people[current] = {"id": ..., "name": "", "events": {}, "sources": [],
"famc": [], "fams": []}`). -/
structure Individual where
  id : String
  name : String := ""
  events : IndiEvents := {}
  sources : List String := []
  famc : List String := []
  fams : List String := []
  deriving DecidableEq, Repr

/-- The per-family record built by the parser
(`families[current] = {"id": ..., "husb": "", "wife": "", "chil": [],
"events": {}}`). -/
structure Family where
  id : String
  husb : String := ""
  wife : String := ""
  chil : List String := []
  events : FamEvents := {}
  deriving DecidableEq, Repr

/-- The per-source record built by the parser. -/
structure Source where
  id : String
  title : String := ""
  author : String := ""
  publ : String := ""
  text : String := ""
  deriving DecidableEq, Repr

/-- The three GEDCOM record kinds the parser opens at level 0. -/
inductive RecType where
  | indi
  | fam
  | sour
  deriving DecidableEq, Repr

/-- Association-list lookup by string key (Python `m[k]` / `m.get(k)` /
`k in m`). -/
def lookupA {α : Type} (k : String) : List (String × α) → Option α
  | [] => none
  | (k2, v) :: rest => if k2 = k then some v else lookupA k rest

/-- Association-list insert-or-replace (Python `m[k] = v`): an existing key
keeps its position and gets the new value, a new key is appended. -/
def insertA {α : Type} (k : String) (v : α) : List (String × α) → List (String × α)
  | [] => [(k, v)]
  | (k2, v2) :: rest =>
    if k2 = k then (k2, v) :: rest else (k2, v2) :: insertA k v rest

/-- In-place update of the value at a key (Python mutation of `m[k]`); a
no-op when the key is absent, which never happens on states reachable by
the parser since opening a record inserts its key first. -/
def modifyA {α : Type} (k : String) (f : α → α) : List (String × α) → List (String × α)
  | [] => []
  | (k2, v2) :: rest =>
    if k2 = k then (k2, f v2) :: rest else (k2, v2) :: modifyA k f rest

/-- The key list of an association list. -/
def keysA {α : Type} (m : List (String × α)) : List String :=
  m.map Prod.fst

/-- The full mutable state of `parse_gedcom`: the three record mappings, the
root id, the current record id and kind, and the three sub-state flags. -/
structure ParseState where
  people : List (String × Individual) := []
  families : List (String × Family) := []
  sources : List (String × Source) := []
  root_id : Option String := none
  current : Option String := none
  current_type : Option RecType := none
  in_birth : Bool := false
  in_death : Bool := false
  in_marr : Bool := false
  deriving DecidableEq, Repr

/-- The level-0 branch of the parser: open a new `INDI`/`FAM`/`SOUR` record
(recording the first individual as root), or close the current record
context; all sub-state flags are cleared in every case. -/
def handleTop (s : ParseState) (tag data : String) : ParseState :=
  if startsWithChar tag '@' then
    let rec_id := clean_id tag
    if data = "INDI" then
      { s with current := some rec_id, current_type := some RecType.indi,
               root_id := match s.root_id with
                          | none => some rec_id
                          | some r => some r,
               people := insertA rec_id { id := rec_id } s.people,
               in_birth := false, in_death := false, in_marr := false }
    else if data = "FAM" then
      { s with current := some rec_id, current_type := some RecType.fam,
               families := insertA rec_id { id := rec_id } s.families,
               in_birth := false, in_death := false, in_marr := false }
    else if data = "SOUR" then
      { s with current := some rec_id, current_type := some RecType.sour,
               sources := insertA rec_id { id := rec_id } s.sources,
               in_birth := false, in_death := false, in_marr := false }
    else
      { s with current := none, current_type := none,
               in_birth := false, in_death := false, in_marr := false }
  else
    { s with current := none, current_type := none,
             in_birth := false, in_death := false, in_marr := false }

/-- The body of the `PLAC` assignment for an individual (source lines
109-113): fill `birth_place` when a birth date exists and no birth place
yet, else fill `death_place` under the symmetric condition, else drop the
value. -/
def placIndi (data : String) (p : Individual) : Individual :=
  if p.events.birth_date.isSome ∧ p.events.birth_place = none then
    { p with events := { p.events with birth_place := some data } }
  else if p.events.death_date.isSome ∧ p.events.death_place = none then
    { p with events := { p.events with death_place := some data } }
  else p

/-- The body of the `PLAC` assignment for a family (source lines 128-130):
fill `marriage_place` when a marriage date exists and no marriage place
yet, else drop the value. -/
def placFam (data : String) (f : Family) : Family :=
  if f.events.marriage_date.isSome ∧ f.events.marriage_place = none then
    { f with events := { f.events with marriage_place := some data } }
  else f

/-- The `INDI` dispatch branch of the parser (source lines 89-113). -/
def handleIndi (s : ParseState) (cur : String) (tag data : String) : ParseState :=
  if tag = "NAME" then
    { s with people := (modifyA cur
        (fun p => { p with
          name := ⟨pyStripL (data.data.filter (fun c => ¬ (c = '/')))⟩ })
        s.people) }
  else if tag = "BIRT" then
    { s with in_birth := true }
  else if tag = "DEAT" then
    { s with in_death := true }
  else if tag = "FAMC" then
    { s with people := (modifyA cur
        (fun p => { p with famc := p.famc ++ [clean_id data] }) s.people) }
  else if tag = "FAMS" then
    { s with people := (modifyA cur
        (fun p => { p with fams := p.fams ++ [clean_id data] }) s.people) }
  else if tag = "SOUR" then
    { s with people := (modifyA cur
        (fun p => { p with sources := p.sources ++ [clean_id data] }) s.people) }
  else if tag = "DATE" then
    if s.in_birth then
      { s with in_birth := false,
               people := (modifyA cur
                 (fun p =>
                   { p with events := { p.events with birth_date := some data } })
                 s.people) }
    else if s.in_death then
      { s with in_death := false,
               people := (modifyA cur
                 (fun p =>
                   { p with events := { p.events with death_date := some data } })
                 s.people) }
    else s
  else if tag = "PLAC" then
    { s with people := (modifyA cur (placIndi data) s.people) }
  else s

/-- The `FAM` dispatch branch of the parser (source lines 116-130). -/
def handleFam (s : ParseState) (cur : String) (tag data : String) : ParseState :=
  if tag = "HUSB" then
    { s with families := (modifyA cur
        (fun f => { f with husb := clean_id data }) s.families) }
  else if tag = "WIFE" then
    { s with families := (modifyA cur
        (fun f => { f with wife := clean_id data }) s.families) }
  else if tag = "CHIL" then
    { s with families := (modifyA cur
        (fun f => { f with chil := f.chil ++ [clean_id data] }) s.families) }
  else if tag = "MARR" then
    { s with in_marr := true }
  else if tag = "DATE" ∧ s.in_marr then
    { s with in_marr := false,
             families := (modifyA cur
               (fun f =>
                 { f with events := { f.events with marriage_date := some data } })
               s.families) }
  else if tag = "PLAC" then
    { s with families := (modifyA cur (placFam data) s.families) }
  else s

/-- The `SOUR` dispatch branch of the parser (source lines 133-141). -/
def handleSour (s : ParseState) (cur : String) (tag data : String) : ParseState :=
  if tag = "TITL" then
    { s with sources := modifyA cur (fun r => { r with title := data }) s.sources }
  else if tag = "AUTH" then
    { s with sources := modifyA cur (fun r => { r with author := data }) s.sources }
  else if tag = "PUBL" then
    { s with sources := modifyA cur (fun r => { r with publ := data }) s.sources }
  else if tag = "TEXT" then
    { s with sources := modifyA cur (fun r => { r with text := data }) s.sources }
  else s

/-- The value field of a tokenized line: `parts[2] if len(parts) > 2 else ""`. -/
def headData (rest : List (List Char)) : String :=
  match rest with
  | [] => ""
  | d :: _ => ⟨d⟩

/-- One iteration of the parser loop: strip and split the line; skip it when
it has fewer than two fields; otherwise dispatch on the level and on the
current record kind.  In the source, `current` is set exactly when
`current_type` is set, so the dispatch matches on both. -/
def step (s : ParseState) (line : String) : ParseState :=
  match tokenizeLine line with
  | level :: tag :: rest =>
    let data : String := headData rest
    if (⟨level⟩ : String) = "0" then handleTop s ⟨tag⟩ data
    else
      match s.current_type, s.current with
      | some RecType.indi, some cur => handleIndi s cur ⟨tag⟩ data
      | some RecType.fam, some cur => handleFam s cur ⟨tag⟩ data
      | some RecType.sour, some cur => handleSour s cur ⟨tag⟩ data
      | _, _ => s
  | _ => s

/-- Run the parser loop from a given state over a list of input lines. -/
def parseLinesFrom (s : ParseState) (lines : List String) : ParseState :=
  lines.foldl step s

/-- `parse_gedcom` from the source: a single linear pass of `step` over the
input lines starting from the empty state; the result carries
`(people, families, sources, root_id)`. -/
def parse_gedcom (lines : List String) : ParseState :=
  parseLinesFrom {} lines

/-- Association-list lookup by natural-number key, for the generation map
(Python `generations[g]`). -/
def lookupN {α : Type} (k : Nat) : List (Nat × α) → Option α
  | [] => none
  | (k2, v) :: rest => if k2 = k then some v else lookupN k rest

/-- The body of one iteration of the outer loop of `build_generations`: from
the previous generation, collect — for each of its members found in the
people mapping, for each of that member's child-of family ids found in the
families mapping — the family's husband (when non-empty) then its wife
(when non-empty), in encounter order, keeping duplicates. -/
def nextGen (people : List (String × Individual)) (families : List (String × Family))
    (prev : List String) : List String :=
  prev.flatMap (fun person_id =>
    match lookupA person_id people with
    | none => []
    | some p =>
      p.famc.flatMap (fun fam_id =>
        match lookupA fam_id families with
        | none => []
        | some fam =>
          (if ¬ (fam.husb = "") then [fam.husb] else []) ++
          (if ¬ (fam.wife = "") then [fam.wife] else [])))

/-- The loop `for g in range(2, max_gen + 1)` of `build_generations`,
unrolled on the number of remaining iterations: `prev` is the generation
stored at key `g - 1` (the accumulator of the previous iteration), and the
loop breaks at the first empty accumulator. -/
def buildFrom (people : List (String × Individual)) (families : List (String × Family)) :
    Nat → Nat → List String → List (Nat × List String)
  | 0, _, _ => []
  | fuel + 1, g, prev =>
    let cur := nextGen people families prev
    if cur = [] then []
    else (g, cur) :: buildFrom people families fuel (g + 1) cur

/-- `build_generations` from the source: generation 1 is the singleton root,
then the generations 2, 3, ... are built by `buildFrom` with
`max_gen - 1` remaining iterations (the length of `range(2, max_gen + 1)`,
which is empty when `max_gen ≤ 1`). -/
def build_generations (people : List (String × Individual))
    (families : List (String × Family)) (root_id : String) (max_gen : Nat) :
    List (Nat × List String) :=
  (1, [root_id]) :: buildFrom people families (max_gen - 1) 2 [root_id]

/-- Modelled from the spec (and from the claim's wording): the
delimiter-stripped identifier carried by a line exactly when that line
opens an Individual record — level token exactly `0`, tag token starting
with `@`, value token exactly `INDI`. -/
def openIndiId (line : String) : Option String :=
  match tokenizeLine line with
  | [level, tag, data] =>
    if (⟨level⟩ : String) = "0" ∧ startsWithChar ⟨tag⟩ '@' ∧ (⟨data⟩ : String) = "INDI"
    then some (clean_id ⟨tag⟩)
    else none
  | _ => none

/-- Modelled from the spec (and from the claim's wording): the root is the
delimiter-stripped identifier of the first line that opens an Individual
record.  Used as the specification side of the root-id claim. -/
def firstIndividualId (lines : List String) : Option String :=
  lines.findSome? openIndiId

/-! ## Association-list lemmas -/

theorem lookupA_modifyA {α : Type} (k : String) (f : α → α) (m : List (String × α)) :
    lookupA k (modifyA k f m) = Option.map f (lookupA k m) := by
  induction m with
  | nil => rfl
  | cons hd tl ih =>
    obtain ⟨k2, v2⟩ := hd
    by_cases h : k2 = k
    · simp [modifyA, lookupA, h]
    · simp [modifyA, lookupA, h, ih]

theorem modifyA_eq_of_fix {α : Type} (k : String) (f : α → α) (m : List (String × α))
    (v : α) (hv : lookupA k m = some v) (hfix : f v = v) : modifyA k f m = m := by
  induction m with
  | nil => rfl
  | cons hd tl ih =>
    obtain ⟨k2, v2⟩ := hd
    by_cases h : k2 = k
    · simp only [lookupA, if_pos h] at hv
      obtain rfl : v2 = v := by injection hv
      simp [modifyA, h, hfix]
    · simp only [lookupA, if_neg h] at hv
      simp [modifyA, h, ih hv]

theorem keysA_modifyA {α : Type} (k : String) (f : α → α) (m : List (String × α)) :
    keysA (modifyA k f m) = keysA m := by
  induction m with
  | nil => rfl
  | cons hd tl ih =>
    obtain ⟨k2, v2⟩ := hd
    by_cases h : k2 = k
    · simp [modifyA, keysA, h]
    · simp only [modifyA, if_neg h]
      simp only [keysA, List.map_cons] at ih ⊢
      rw [ih]

theorem mem_keysA_insertA_self {α : Type} (k : String) (v : α) (m : List (String × α)) :
    k ∈ keysA (insertA k v m) := by
  induction m with
  | nil => simp [insertA, keysA]
  | cons hd tl ih =>
    obtain ⟨k2, v2⟩ := hd
    by_cases h : k2 = k
    · simp [insertA, keysA, h]
    · simp only [insertA, if_neg h, keysA, List.map_cons, List.mem_cons]
      exact Or.inr ih

theorem mem_keysA_insertA {α : Type} (a k : String) (v : α) (m : List (String × α))
    (h : a ∈ keysA m) : a ∈ keysA (insertA k v m) := by
  induction m with
  | nil => simp [keysA] at h
  | cons hd tl ih =>
    obtain ⟨k2, v2⟩ := hd
    simp only [keysA, List.map_cons, List.mem_cons] at h
    by_cases hk : k2 = k
    · simp only [insertA, if_pos hk, keysA, List.map_cons, List.mem_cons]
      exact h.imp id id
    · simp only [insertA, if_neg hk, keysA, List.map_cons, List.mem_cons] at ih ⊢
      exact h.imp id ih

/-! ## Preservation lemmas for the parser step -/

theorem handleIndi_families (s : ParseState) (cur tag data : String) :
    (handleIndi s cur tag data).families = s.families := by
  rw [handleIndi.eq_def]
  repeat' split
  all_goals rfl

theorem handleIndi_sources_map (s : ParseState) (cur tag data : String) :
    (handleIndi s cur tag data).sources = s.sources := by
  rw [handleIndi.eq_def]
  repeat' split
  all_goals rfl

theorem handleIndi_root_id (s : ParseState) (cur tag data : String) :
    (handleIndi s cur tag data).root_id = s.root_id := by
  rw [handleIndi.eq_def]
  repeat' split
  all_goals rfl

theorem handleIndi_keysA_people (s : ParseState) (cur tag data : String) :
    keysA (handleIndi s cur tag data).people = keysA s.people := by
  rw [handleIndi.eq_def]
  repeat' split
  all_goals simp [keysA_modifyA]

theorem handleFam_people (s : ParseState) (cur tag data : String) :
    (handleFam s cur tag data).people = s.people := by
  rw [handleFam.eq_def]
  repeat' split
  all_goals rfl

theorem handleFam_sources_map (s : ParseState) (cur tag data : String) :
    (handleFam s cur tag data).sources = s.sources := by
  rw [handleFam.eq_def]
  repeat' split
  all_goals rfl

theorem handleFam_root_id (s : ParseState) (cur tag data : String) :
    (handleFam s cur tag data).root_id = s.root_id := by
  rw [handleFam.eq_def]
  repeat' split
  all_goals rfl

theorem handleFam_keysA_families (s : ParseState) (cur tag data : String) :
    keysA (handleFam s cur tag data).families = keysA s.families := by
  rw [handleFam.eq_def]
  repeat' split
  all_goals simp [keysA_modifyA]

theorem handleSour_people (s : ParseState) (cur tag data : String) :
    (handleSour s cur tag data).people = s.people := by
  rw [handleSour.eq_def]
  repeat' split
  all_goals rfl

theorem handleSour_families (s : ParseState) (cur tag data : String) :
    (handleSour s cur tag data).families = s.families := by
  rw [handleSour.eq_def]
  repeat' split
  all_goals rfl

theorem handleSour_root_id (s : ParseState) (cur tag data : String) :
    (handleSour s cur tag data).root_id = s.root_id := by
  rw [handleSour.eq_def]
  repeat' split
  all_goals rfl

theorem handleSour_keysA_sources (s : ParseState) (cur tag data : String) :
    keysA (handleSour s cur tag data).sources = keysA s.sources := by
  rw [handleSour.eq_def]
  repeat' split
  all_goals simp [keysA_modifyA]

theorem handleTop_keysA_people (s : ParseState) (tag data : String) (a : String)
    (h : a ∈ keysA s.people) : a ∈ keysA (handleTop s tag data).people := by
  rw [handleTop.eq_def]
  repeat' split
  all_goals first
    | exact h
    | exact mem_keysA_insertA a _ _ s.people h

theorem handleTop_keysA_families (s : ParseState) (tag data : String) (a : String)
    (h : a ∈ keysA s.families) : a ∈ keysA (handleTop s tag data).families := by
  rw [handleTop.eq_def]
  repeat' split
  all_goals first
    | exact h
    | exact mem_keysA_insertA a _ _ s.families h

theorem handleTop_keysA_sources (s : ParseState) (tag data : String) (a : String)
    (h : a ∈ keysA s.sources) : a ∈ keysA (handleTop s tag data).sources := by
  rw [handleTop.eq_def]
  repeat' split
  all_goals first
    | exact h
    | exact mem_keysA_insertA a _ _ s.sources h

theorem step_keysA_people (s : ParseState) (line : String) (a : String)
    (h : a ∈ keysA s.people) : a ∈ keysA (step s line).people := by
  rw [step.eq_def]
  rcases htok : tokenizeLine line with _ | ⟨level, _ | ⟨tag, rest⟩⟩
  · exact h
  · exact h
  · by_cases hlv : (⟨level⟩ : String) = "0"
    · simp only [if_pos hlv]
      exact handleTop_keysA_people s _ _ a h
    · simp only [if_neg hlv]
      rcases s.current_type with _ | ty
      · exact h
      · rcases ty <;> rcases s.current with _ | cur <;>
          simp only [handleIndi_keysA_people, handleFam_people, handleSour_people] <;>
          exact h

theorem step_keysA_families (s : ParseState) (line : String) (a : String)
    (h : a ∈ keysA s.families) : a ∈ keysA (step s line).families := by
  rw [step.eq_def]
  rcases htok : tokenizeLine line with _ | ⟨level, _ | ⟨tag, rest⟩⟩
  · exact h
  · exact h
  · by_cases hlv : (⟨level⟩ : String) = "0"
    · simp only [if_pos hlv]
      exact handleTop_keysA_families s _ _ a h
    · simp only [if_neg hlv]
      rcases s.current_type with _ | ty
      · exact h
      · rcases ty <;> rcases s.current with _ | cur <;>
          simp only [handleIndi_families, handleFam_keysA_families, handleSour_families] <;>
          exact h

theorem step_keysA_sources (s : ParseState) (line : String) (a : String)
    (h : a ∈ keysA s.sources) : a ∈ keysA (step s line).sources := by
  rw [step.eq_def]
  rcases htok : tokenizeLine line with _ | ⟨level, _ | ⟨tag, rest⟩⟩
  · exact h
  · exact h
  · by_cases hlv : (⟨level⟩ : String) = "0"
    · simp only [if_pos hlv]
      exact handleTop_keysA_sources s _ _ a h
    · simp only [if_neg hlv]
      rcases s.current_type with _ | ty
      · exact h
      · rcases ty <;> rcases s.current with _ | cur <;>
          simp only [handleIndi_sources_map, handleFam_sources_map, handleSour_keysA_sources] <;>
          exact h

theorem parseLinesFrom_keysA_people (s : ParseState) (ls : List String) (a : String)
    (h : a ∈ keysA s.people) : a ∈ keysA (parseLinesFrom s ls).people := by
  induction ls generalizing s with
  | nil => exact h
  | cons l tl ih => exact ih (step s l) (step_keysA_people s l a h)

theorem parseLinesFrom_keysA_families (s : ParseState) (ls : List String) (a : String)
    (h : a ∈ keysA s.families) : a ∈ keysA (parseLinesFrom s ls).families := by
  induction ls generalizing s with
  | nil => exact h
  | cons l tl ih => exact ih (step s l) (step_keysA_families s l a h)

theorem parseLinesFrom_keysA_sources (s : ParseState) (ls : List String) (a : String)
    (h : a ∈ keysA s.sources) : a ∈ keysA (parseLinesFrom s ls).sources := by
  induction ls generalizing s with
  | nil => exact h
  | cons l tl ih => exact ih (step s l) (step_keysA_sources s l a h)

/-! ## Reduction lemmas for single parser steps -/

theorem step_skip (s : ParseState) (line : String)
    (h : (tokenizeLine line).length < 2) : step s line = s := by
  rw [step.eq_def]
  rcases htok : tokenizeLine line with _ | ⟨a, _ | ⟨b, rest⟩⟩
  · rfl
  · rfl
  · rw [htok] at h
    simp only [List.length_cons] at h
    omega

theorem parseLinesFrom_skip (s : ParseState) (pre post : List String) (line : String)
    (h : (tokenizeLine line).length < 2) :
    parseLinesFrom s (pre ++ line :: post) = parseLinesFrom s (pre ++ post) := by
  unfold parseLinesFrom
  rw [List.foldl_append, List.foldl_append, List.foldl_cons, step_skip _ _ h]

theorem handleIndi_date (s : ParseState) (c d : String) :
    handleIndi s c "DATE" d =
      if s.in_birth then
        { s with in_birth := false,
                 people := (modifyA c
                   (fun p => { p with events := { p.events with birth_date := some d } })
                   s.people) }
      else if s.in_death then
        { s with in_death := false,
                 people := (modifyA c
                   (fun p => { p with events := { p.events with death_date := some d } })
                   s.people) }
      else s := by
  rw [handleIndi.eq_def]
  rw [if_neg (by decide : ¬ (("DATE" : String) = "NAME"))]
  rw [if_neg (by decide : ¬ (("DATE" : String) = "BIRT"))]
  rw [if_neg (by decide : ¬ (("DATE" : String) = "DEAT"))]
  rw [if_neg (by decide : ¬ (("DATE" : String) = "FAMC"))]
  rw [if_neg (by decide : ¬ (("DATE" : String) = "FAMS"))]
  rw [if_neg (by decide : ¬ (("DATE" : String) = "SOUR"))]
  rw [if_pos (rfl : ("DATE" : String) = "DATE")]

theorem handleIndi_plac (s : ParseState) (c d : String) :
    handleIndi s c "PLAC" d =
      { s with people := (modifyA c (placIndi d) s.people) } := by
  rw [handleIndi.eq_def]
  rw [if_neg (by decide : ¬ (("PLAC" : String) = "NAME"))]
  rw [if_neg (by decide : ¬ (("PLAC" : String) = "BIRT"))]
  rw [if_neg (by decide : ¬ (("PLAC" : String) = "DEAT"))]
  rw [if_neg (by decide : ¬ (("PLAC" : String) = "FAMC"))]
  rw [if_neg (by decide : ¬ (("PLAC" : String) = "FAMS"))]
  rw [if_neg (by decide : ¬ (("PLAC" : String) = "SOUR"))]
  rw [if_neg (by decide : ¬ (("PLAC" : String) = "DATE"))]
  rw [if_pos (rfl : ("PLAC" : String) = "PLAC")]

theorem handleFam_husb (s : ParseState) (c d : String) :
    handleFam s c "HUSB" d =
      { s with families := (modifyA c
          (fun f => { f with husb := clean_id d }) s.families) } := by
  rw [handleFam.eq_def]
  rw [if_pos (rfl : ("HUSB" : String) = "HUSB")]

theorem handleFam_wife (s : ParseState) (c d : String) :
    handleFam s c "WIFE" d =
      { s with families := (modifyA c
          (fun f => { f with wife := clean_id d }) s.families) } := by
  rw [handleFam.eq_def]
  rw [if_neg (by decide : ¬ (("WIFE" : String) = "HUSB"))]
  rw [if_pos (rfl : ("WIFE" : String) = "WIFE")]

theorem handleFam_chil (s : ParseState) (c d : String) :
    handleFam s c "CHIL" d =
      { s with families := (modifyA c
          (fun f => { f with chil := f.chil ++ [clean_id d] }) s.families) } := by
  rw [handleFam.eq_def]
  rw [if_neg (by decide : ¬ (("CHIL" : String) = "HUSB"))]
  rw [if_neg (by decide : ¬ (("CHIL" : String) = "WIFE"))]
  rw [if_pos (rfl : ("CHIL" : String) = "CHIL")]

theorem step_dispatch_indi (s : ParseState) (c : String) (line : String)
    (lv tg : List Char) (rest : List (List Char))
    (htok : tokenizeLine line = lv :: tg :: rest)
    (hlv : ¬ ((⟨lv⟩ : String) = "0"))
    (hty : s.current_type = some RecType.indi) (hcur : s.current = some c) :
    step s line = handleIndi s c ⟨tg⟩ (headData rest) := by
  rw [step.eq_def, htok]
  simp only [if_neg hlv, hty, hcur]

theorem step_dispatch_fam (s : ParseState) (c : String) (line : String)
    (lv tg : List Char) (rest : List (List Char))
    (htok : tokenizeLine line = lv :: tg :: rest)
    (hlv : ¬ ((⟨lv⟩ : String) = "0"))
    (hty : s.current_type = some RecType.fam) (hcur : s.current = some c) :
    step s line = handleFam s c ⟨tg⟩ (headData rest) := by
  rw [step.eq_def, htok]
  simp only [if_neg hlv, hty, hcur]

theorem step_open_indi (s : ParseState) (line : String) (w : List Char)
    (htok : tokenizeLine line = [['0'], w, "INDI".data])
    (hsw : startsWithChar ⟨w⟩ '@' = true) :
    (step s line).people =
      insertA (clean_id ⟨w⟩) { id := clean_id ⟨w⟩ } s.people := by
  rw [step.eq_def, htok]
  show (handleTop s ⟨w⟩ "INDI").people = _
  rw [handleTop.eq_def, if_pos hsw]
  rfl

/-! ## Tracking of the root id -/

theorem headData_nil : headData [] = "" := rfl

theorem headData_cons (d : List Char) (t : List (List Char)) :
    headData (d :: t) = ⟨d⟩ := rfl

theorem tokenizeLine_shape (line : String) :
    (∃ a, tokenizeLine line = [a]) ∨ (∃ a b, tokenizeLine line = [a, b]) ∨
    (∃ a b c, tokenizeLine line = [a, b, c]) := by
  rcases h1 : splitAtSpace (pyStripL line.data) with _ | ⟨a, rest⟩
  · refine Or.inl ⟨pyStripL line.data, ?_⟩
    unfold tokenizeLine pySplit2
    simp only [h1]
  · rcases h2 : splitAtSpace rest with _ | ⟨b, rest2⟩
    · refine Or.inr (Or.inl ⟨a, rest, ?_⟩)
      unfold tokenizeLine pySplit2
      simp only [h1, h2]
    · refine Or.inr (Or.inr ⟨a, b, rest2, ?_⟩)
      unfold tokenizeLine pySplit2
      simp only [h1, h2]

theorem handleTop_root_id (s : ParseState) (tag data : String) :
    (handleTop s tag data).root_id =
      if startsWithChar tag '@' = true ∧ data = "INDI" then
        match s.root_id with
        | none => some (clean_id tag)
        | some r => some r
      else s.root_id := by
  rw [handleTop.eq_def]
  by_cases hsw : startsWithChar tag '@' = true
  · rw [if_pos hsw]
    by_cases hdt : data = "INDI"
    · rw [if_pos hdt, if_pos ⟨hsw, hdt⟩]
    · rw [if_neg hdt,
        if_neg (show ¬ (startsWithChar tag '@' = true ∧ data = "INDI") from
          fun hc => hdt hc.2)]
      repeat' split
      all_goals rfl
  · rw [if_neg hsw,
      if_neg (show ¬ (startsWithChar tag '@' = true ∧ data = "INDI") from
        fun hc => hsw hc.1)]

theorem step_root_id (s : ParseState) (line : String) :
    (step s line).root_id = match s.root_id with
                            | some r => some r
                            | none => openIndiId line := by
  rcases tokenizeLine_shape line with ⟨a, h⟩ | ⟨a, b, h⟩ | ⟨a, b, c, h⟩ <;>
    rw [step.eq_def] <;> unfold openIndiId <;> simp only [h]
  · cases s.root_id <;> rfl
  · by_cases hlv : (⟨a⟩ : String) = "0"
    · rw [if_pos hlv, handleTop_root_id, headData_nil]
      rw [if_neg (show ¬ (startsWithChar (⟨b⟩ : String) '@' = true ∧ ("" : String) = "INDI")
            from fun hc => (by decide : ¬ (("" : String) = "INDI")) hc.2)]
      cases s.root_id <;> rfl
    · rw [if_neg hlv]
      rcases hty : s.current_type with _ | ty
      · rcases s.current with _ | cv <;> cases s.root_id <;> rfl
      · cases ty <;> rcases hcur : s.current with _ | cv <;>
          simp only [handleIndi_root_id, handleFam_root_id, handleSour_root_id] <;>
          cases s.root_id <;> rfl
  · by_cases hlv : (⟨a⟩ : String) = "0"
    · rw [if_pos hlv, handleTop_root_id, headData_cons]
      by_cases hsw : startsWithChar (⟨b⟩ : String) '@' = true
      · by_cases hdt : (⟨c⟩ : String) = "INDI"
        · rw [if_pos
              (show startsWithChar (⟨b⟩ : String) '@' = true ∧ (⟨c⟩ : String) = "INDI"
                from ⟨hsw, hdt⟩),
            if_pos
              (show (⟨a⟩ : String) = "0" ∧ startsWithChar (⟨b⟩ : String) '@' = true ∧
                  (⟨c⟩ : String) = "INDI" from ⟨hlv, hsw, hdt⟩)]
          cases s.root_id <;> rfl
        · rw [if_neg
              (show ¬ (startsWithChar (⟨b⟩ : String) '@' = true ∧ (⟨c⟩ : String) = "INDI")
                from fun hc => hdt hc.2),
            if_neg
              (show ¬ ((⟨a⟩ : String) = "0" ∧ startsWithChar (⟨b⟩ : String) '@' = true ∧
                  (⟨c⟩ : String) = "INDI") from fun hc => hdt hc.2.2)]
          cases s.root_id <;> rfl
      · rw [if_neg
            (show ¬ (startsWithChar (⟨b⟩ : String) '@' = true ∧ (⟨c⟩ : String) = "INDI")
              from fun hc => hsw hc.1),
          if_neg
            (show ¬ ((⟨a⟩ : String) = "0" ∧ startsWithChar (⟨b⟩ : String) '@' = true ∧
                (⟨c⟩ : String) = "INDI") from fun hc => hsw hc.2.1)]
        cases s.root_id <;> rfl
    · rw [if_neg hlv,
        if_neg
          (show ¬ ((⟨a⟩ : String) = "0" ∧ startsWithChar (⟨b⟩ : String) '@' = true ∧
              (⟨c⟩ : String) = "INDI") from fun hc => hlv hc.1)]
      rcases hty : s.current_type with _ | ty
      · rcases s.current with _ | cv <;> cases s.root_id <;> rfl
      · cases ty <;> rcases hcur : s.current with _ | cv <;>
          simp only [handleIndi_root_id, handleFam_root_id, handleSour_root_id] <;>
          cases s.root_id <;> rfl

theorem parseLinesFrom_root_id (s : ParseState) (ls : List String) :
    (parseLinesFrom s ls).root_id = match s.root_id with
                                    | some r => some r
                                    | none => firstIndividualId ls := by
  induction ls generalizing s with
  | nil =>
    show s.root_id = _
    cases s.root_id <;> rfl
  | cons l tl ih =>
    show (parseLinesFrom (step s l) tl).root_id = _
    rw [ih, step_root_id]
    cases hr : s.root_id
    · cases ho : openIndiId l <;>
        simp [firstIndividualId, List.findSome?_cons, ho]
    · rfl

/-! ## Generation-builder lemmas -/

theorem mk_data (s : String) : (⟨s.data⟩ : String) = s := rfl

theorem mem_keysA_parse_of_open (ls : List String) (s : ParseState) (line : String)
    (w : List Char) (hmem : line ∈ ls)
    (htok : tokenizeLine line = [['0'], w, "INDI".data])
    (hsw : startsWithChar ⟨w⟩ '@' = true) :
    clean_id ⟨w⟩ ∈ keysA (parseLinesFrom s ls).people := by
  induction ls generalizing s with
  | nil => cases hmem
  | cons a tl ih =>
    rcases List.mem_cons.mp hmem with h | hmem2
    · subst h
      show clean_id (⟨w⟩ : String) ∈ keysA (parseLinesFrom (step s line) tl).people
      apply parseLinesFrom_keysA_people
      rw [step_open_indi s line w htok hsw]
      exact mem_keysA_insertA_self _ _ _
    · exact ih (step s a) hmem2

theorem lookupN_buildFrom (people : List (String × Individual))
    (families : List (String × Family)) :
    ∀ (fuel g0 : Nat) (prev : List String) (g : Nat) (l : List String),
      lookupN g (buildFrom people families fuel g0 prev) = some l →
      (g = g0 ∧ l = nextGen people families prev) ∨
      (g0 < g ∧ ∃ m,
        lookupN (g - 1) (buildFrom people families fuel g0 prev) = some m ∧
        l = nextGen people families m) := by
  intro fuel
  induction fuel with
  | zero =>
    intro g0 prev g l h
    simp [buildFrom, lookupN] at h
  | succ n ih =>
    intro g0 prev g l h
    by_cases hcur : nextGen people families prev = []
    · rw [buildFrom, if_pos hcur] at h
      simp [lookupN] at h
    · rw [buildFrom, if_neg hcur] at h ⊢
      by_cases hg : g0 = g
      · subst hg
        left
        refine ⟨rfl, ?_⟩
        simp only [lookupN, if_pos rfl] at h
        exact (Option.some_inj.mp h).symm
      · simp only [lookupN, if_neg hg] at h
        rcases ih (g0 + 1) (nextGen people families prev) g l h with
          ⟨hg1, hl⟩ | ⟨hlt, m, hm, hl⟩
        · right
          refine ⟨by omega, nextGen people families prev, ?_, hl⟩
          have hgm : g - 1 = g0 := by omega
          rw [hgm]
          simp [lookupN]
        · right
          refine ⟨by omega, m, ?_, hl⟩
          have hne : ¬ (g0 = g - 1) := by omega
          simp only [lookupN, if_neg hne]
          exact hm

theorem buildFrom_ne_nil (people : List (String × Individual))
    (families : List (String × Family)) :
    ∀ (fuel g0 : Nat) (prev : List String) (g : Nat) (l : List String),
      (g, l) ∈ buildFrom people families fuel g0 prev → l ≠ [] := by
  intro fuel
  induction fuel with
  | zero =>
    intro g0 prev g l h
    simp [buildFrom] at h
  | succ n ih =>
    intro g0 prev g l h
    by_cases hcur : nextGen people families prev = []
    · rw [buildFrom, if_pos hcur] at h
      cases h
    · rw [buildFrom, if_neg hcur] at h
      rcases List.mem_cons.mp h with h1 | h1
      · injection h1 with hg hl
        rw [hl]
        exact hcur
      · exact ih _ _ _ _ h1

theorem buildFrom_map_fst (people : List (String × Individual))
    (families : List (String × Family)) :
    ∀ (fuel g0 : Nat) (prev : List String),
      ∃ j, j ≤ fuel ∧
        (buildFrom people families fuel g0 prev).map Prod.fst = List.range' g0 j := by
  intro fuel
  induction fuel with
  | zero => intro g0 prev; exact ⟨0, Nat.le_refl 0, rfl⟩
  | succ n ih =>
    intro g0 prev
    by_cases hcur : nextGen people families prev = []
    · refine ⟨0, Nat.zero_le _, ?_⟩
      rw [buildFrom, if_pos hcur]
      rfl
    · obtain ⟨j, hj, hmap⟩ := ih (g0 + 1) (nextGen people families prev)
      refine ⟨j + 1, by omega, ?_⟩
      rw [buildFrom, if_neg hcur, List.map_cons, hmap, List.range'_succ]

theorem nextGen_of_absent (people : List (String × Individual))
    (families : List (String × Family)) (root : String)
    (h : lookupA root people = none) : nextGen people families [root] = [] := by
  simp [nextGen, h]

theorem nextGen_of_no_famc (people : List (String × Individual))
    (families : List (String × Family)) (root : String) (p : Individual)
    (h : lookupA root people = some p) (hfamc : p.famc = []) :
    nextGen people families [root] = [] := by
  simp [nextGen, h, hfamc]

theorem buildFrom_of_nextGen_nil (people : List (String × Individual))
    (families : List (String × Family)) (fuel g0 : Nat) (prev : List String)
    (h : nextGen people families prev = []) :
    buildFrom people families fuel g0 prev = [] := by
  cases fuel with
  | zero => rfl
  | succ n => rw [buildFrom, if_pos h]

/-! ## Single-step event lemmas -/

theorem step_date_indi (s : ParseState) (c : String) (l : String) (lv d : List Char)
    (hty : s.current_type = some RecType.indi) (hcur : s.current = some c)
    (htok : tokenizeLine l = [lv, "DATE".data, d]) (hlv : ¬ ((⟨lv⟩ : String) = "0")) :
    step s l =
      if s.in_birth then
        { s with in_birth := false,
                 people := (modifyA c
                   (fun p =>
                     { p with events := { p.events with birth_date := some ⟨d⟩ } })
                   s.people) }
      else if s.in_death then
        { s with in_death := false,
                 people := (modifyA c
                   (fun p =>
                     { p with events := { p.events with death_date := some ⟨d⟩ } })
                   s.people) }
      else s := by
  rw [step_dispatch_indi s c l lv ("DATE".data) [d] htok hlv hty hcur]
  exact handleIndi_date s c ⟨d⟩

theorem step_plac_indi (s : ParseState) (c : String) (l : String) (lv d : List Char)
    (hty : s.current_type = some RecType.indi) (hcur : s.current = some c)
    (htok : tokenizeLine l = [lv, "PLAC".data, d]) (hlv : ¬ ((⟨lv⟩ : String) = "0")) :
    step s l = { s with people := (modifyA c (placIndi ⟨d⟩) s.people) } := by
  rw [step_dispatch_indi s c l lv ("PLAC".data) [d] htok hlv hty hcur]
  exact handleIndi_plac s c ⟨d⟩

/-! ## Claim theorems -/

/-- C1 (counterexample): on an input whose second line `"TRLR"` has only one
whitespace-separated field, `parse_gedcom` does not abort: it returns the
full mappings, including the `NAME` parsed from the line after the
malformed one, contradicting the claim that such a line makes parsing fail
with a `MalformedRecordError` and return no mappings (no such error exists
in the code). -/
theorem malformed_line_does_not_abort_parse :
    (parse_gedcom ["0 @I6@ INDI", "TRLR", "1 NAME John /Doe/"]).people =
      [("I6", { id := "I6", name := "John Doe" })] ∧
    (parse_gedcom ["0 @I6@ INDI", "TRLR", "1 NAME John /Doe/"]).root_id = some "I6" := by
  decide

/-- C1 (amended): a non-blank line with fewer than two whitespace-separated
fields is silently skipped — parsing never fails, and the parse result over
any input equals the parse result with such lines removed. -/
theorem parse_gedcom_skips_malformed_lines (pre post : List String) (line : String)
    (h : (tokenizeLine line).length < 2) :
    parse_gedcom (pre ++ line :: post) = parse_gedcom (pre ++ post) := by
  unfold parse_gedcom
  exact parseLinesFrom_skip {} pre post line h

/-- Witness for C1 (amended) at a concrete malformed line. -/
theorem parse_gedcom_skips_malformed_lines_witness :
    parse_gedcom (["0 @I6@ INDI"] ++ "X" :: ["1 SEX M"]) =
      parse_gedcom (["0 @I6@ INDI"] ++ ["1 SEX M"]) :=
  parse_gedcom_skips_malformed_lines ["0 @I6@ INDI"] ["1 SEX M"] "X" (by decide)

/-- C6 (counterexample): a later level-0 line reusing the identifier `@I9@`
reinitializes the record — the accumulated `NAME` is discarded,
contradicting the claim that previously accumulated data is never reset. -/
theorem reopened_record_is_reset :
    lookupA "I9" (parse_gedcom ["0 @I9@ INDI", "1 NAME Ann /Lee/"]).people =
      some { id := "I9", name := "Ann Lee" } ∧
    lookupA "I9"
        (parse_gedcom ["0 @I9@ INDI", "1 NAME Ann /Lee/", "0 @I9@ INDI"]).people =
      some { id := "I9", name := "" } := by
  decide

/-- C6 (amended): no record is ever deleted — once an identifier is present
in the people, families or sources mapping after parsing a prefix of the
input, it is still present after parsing any extension of that prefix; a
level-0 line reusing the identifier reinitializes the record's fields but
keeps the key. -/
theorem parse_gedcom_keys_monotone (pre post : List String) (k : String) :
    (k ∈ keysA (parse_gedcom pre).people →
      k ∈ keysA (parse_gedcom (pre ++ post)).people) ∧
    (k ∈ keysA (parse_gedcom pre).families →
      k ∈ keysA (parse_gedcom (pre ++ post)).families) ∧
    (k ∈ keysA (parse_gedcom pre).sources →
      k ∈ keysA (parse_gedcom (pre ++ post)).sources) := by
  have hsplit : parse_gedcom (pre ++ post) = parseLinesFrom (parse_gedcom pre) post := by
    unfold parse_gedcom parseLinesFrom
    rw [List.foldl_append]
  rw [hsplit]
  exact ⟨fun h => parseLinesFrom_keysA_people _ post k h,
         fun h => parseLinesFrom_keysA_families _ post k h,
         fun h => parseLinesFrom_keysA_sources _ post k h⟩

/-- Witness for C6 (amended) at a concrete input. -/
theorem parse_gedcom_keys_monotone_witness :
    "I5" ∈ keysA (parse_gedcom (["0 @I5@ INDI"] ++ ["0 @S1@ SOUR"])).people :=
  (parse_gedcom_keys_monotone ["0 @I5@ INDI"] ["0 @S1@ SOUR"] "I5").1 (by decide)

/-- C7: the root id returned by `parse_gedcom` is exactly the
delimiter-stripped identifier of the first line opening an Individual
record, and is absent when no Individual record is opened. -/
theorem parse_root_id_is_first_individual (ls : List String) :
    (parse_gedcom ls).root_id = firstIndividualId ls := by
  have h := parseLinesFrom_root_id {} ls
  exact h

/-- Witness for C7 at a concrete input: a Family record precedes the first
Individual record, and a second Individual record follows it. -/
theorem parse_root_id_is_first_individual_witness :
    (parse_gedcom ["0 @F9@ FAM", "0 @I3@ INDI", "0 @I8@ INDI"]).root_id =
      firstIndividualId ["0 @F9@ FAM", "0 @I3@ INDI", "0 @I8@ INDI"] :=
  parse_root_id_is_first_individual ["0 @F9@ FAM", "0 @I3@ INDI", "0 @I8@ INDI"]

/-- C9: the end-to-end example — one Individual `@I1@` (root) with
`FAMC @F1@` and one Family `@F1@` with `HUSB @I2@`, `WIFE @I3@`, `MARR`,
`DATE 4 JUL 1950`, `PLAC Boston` — parses to a family with marriage date
`4 JUL 1950` and marriage place `Boston`, and builds two generations
`{1: [I1], 2: [I2, I3]}`. -/
theorem example_end_to_end :
    (parse_gedcom ["0 @I1@ INDI", "1 FAMC @F1@", "0 @F1@ FAM", "1 HUSB @I2@",
        "1 WIFE @I3@", "1 MARR", "2 DATE 4 JUL 1950", "2 PLAC Boston"]).root_id =
      some "I1" ∧
    lookupA "F1" (parse_gedcom ["0 @I1@ INDI", "1 FAMC @F1@", "0 @F1@ FAM",
        "1 HUSB @I2@", "1 WIFE @I3@", "1 MARR", "2 DATE 4 JUL 1950",
        "2 PLAC Boston"]).families =
      some { id := "F1", husb := "I2", wife := "I3", chil := [],
             events := { marriage_date := some "4 JUL 1950",
                         marriage_place := some "Boston" } } ∧
    build_generations
        (parse_gedcom ["0 @I1@ INDI", "1 FAMC @F1@", "0 @F1@ FAM", "1 HUSB @I2@",
          "1 WIFE @I3@", "1 MARR", "2 DATE 4 JUL 1950", "2 PLAC Boston"]).people
        (parse_gedcom ["0 @I1@ INDI", "1 FAMC @F1@", "0 @F1@ FAM", "1 HUSB @I2@",
          "1 WIFE @I3@", "1 MARR", "2 DATE 4 JUL 1950", "2 PLAC Boston"]).families
        "I1" 2 =
      [(1, ["I1"]), (2, ["I2", "I3"])] := by
  decide

/-- C2: generation 1 of the built generation set is exactly the singleton
root, and every present generation `g > 1` is `nextGen` of the present
generation `g - 1`: the concatenation, over each individual of generation
`g - 1` found in the people mapping, over each of its child-of families
found in the families mapping, of the family's non-empty husband then
non-empty wife identifiers, in encounter order, with duplicates kept. -/
theorem build_generations_structure (people : List (String × Individual))
    (families : List (String × Family)) (root : String) (mg : Nat)
    (hmg : 1 ≤ mg) :
    lookupN 1 (build_generations people families root mg) = some [root] ∧
    (∀ g l, 1 < g →
      lookupN g (build_generations people families root mg) = some l →
      ∃ prev,
        lookupN (g - 1) (build_generations people families root mg) = some prev ∧
        l = nextGen people families prev) := by
  constructor
  · simp [build_generations, lookupN]
  · intro g l hg h
    rw [build_generations] at h ⊢
    rw [show lookupN g ((1, [root]) ::
          buildFrom people families (mg - 1) 2 [root]) =
        lookupN g (buildFrom people families (mg - 1) 2 [root]) from by
      simp only [lookupN, if_neg (by omega : ¬ (1 = g))]] at h
    rcases lookupN_buildFrom people families (mg - 1) 2 [root] g l h with
      ⟨hg2, hl⟩ | ⟨hlt, m, hm, hl⟩
    · refine ⟨[root], ?_, hl⟩
      have h1 : g - 1 = 1 := by omega
      rw [h1]
      simp [lookupN]
    · refine ⟨m, ?_, hl⟩
      simp only [lookupN, if_neg (by omega : ¬ (1 = g - 1))]
      exact hm

/-- Witness for C2 at a concrete input. -/
theorem build_generations_structure_witness :
    lookupN 1 (build_generations [] [] "R0" 4) = some ["R0"] ∧
    (∀ g l, 1 < g → lookupN g (build_generations [] [] "R0" 4) = some l →
      ∃ prev, lookupN (g - 1) (build_generations [] [] "R0" 4) = some prev ∧
        l = nextGen [] [] prev) :=
  build_generations_structure [] [] "R0" 4 (by decide)

/-- C3: the generation builder is total and trims trailing emptiness — a
root absent from the people mapping, or one with an empty child-of list,
yields exactly the one-generation result `{1: [root]}` whatever
`max_generations` is, and every generation present in any result is
non-empty. -/
theorem build_generations_total_and_trimmed (people : List (String × Individual))
    (families : List (String × Family)) (root : String) (mg : Nat) :
    (lookupA root people = none →
      build_generations people families root mg = [(1, [root])]) ∧
    (∀ p, lookupA root people = some p → p.famc = [] →
      build_generations people families root mg = [(1, [root])]) ∧
    (∀ g l, (g, l) ∈ build_generations people families root mg → l ≠ []) := by
  refine ⟨?_, ?_, ?_⟩
  · intro h
    rw [build_generations,
      buildFrom_of_nextGen_nil people families (mg - 1) 2 [root]
        (nextGen_of_absent people families root h)]
  · intro p h hfamc
    rw [build_generations,
      buildFrom_of_nextGen_nil people families (mg - 1) 2 [root]
        (nextGen_of_no_famc people families root p h hfamc)]
  · intro g l h
    rw [build_generations] at h
    rcases List.mem_cons.mp h with h1 | h1
    · injection h1 with hg hl
      rw [hl]
      exact List.cons_ne_nil _ _
    · exact buildFrom_ne_nil people families (mg - 1) 2 [root] g l h1

/-- Witness for C3 at a concrete input (root absent from the mapping). -/
theorem build_generations_total_and_trimmed_witness :
    build_generations [] [] "R1" 9 = [(1, ["R1"])] :=
  (build_generations_total_and_trimmed [] [] "R1" 9).1 rfl

/-- C10: for `max_generations ≥ 1` the generation numbers of the result are
exactly `1, 2, ..., k` for some `1 ≤ k ≤ max_generations` — contiguous,
starting at 1, none beyond the requested maximum — and every generation
list in the result is non-empty. -/
theorem build_generations_keys_contiguous (people : List (String × Individual))
    (families : List (String × Family)) (root : String) (mg : Nat)
    (hmg : 1 ≤ mg) :
    ∃ k, 1 ≤ k ∧ k ≤ mg ∧
      (build_generations people families root mg).map Prod.fst = List.range' 1 k ∧
      ∀ pr ∈ build_generations people families root mg, pr.2 ≠ [] := by
  obtain ⟨j, hj, hmap⟩ := buildFrom_map_fst people families (mg - 1) 2 [root]
  refine ⟨j + 1, by omega, by omega, ?_, ?_⟩
  · rw [build_generations, List.map_cons, hmap, List.range'_succ]
  · intro pr hpr
    obtain ⟨g, l⟩ := pr
    rw [build_generations] at hpr
    rcases List.mem_cons.mp hpr with h1 | h1
    · injection h1 with hg hl
      rw [hl]
      exact List.cons_ne_nil _ _
    · exact buildFrom_ne_nil people families (mg - 1) 2 [root] g l h1

/-- Witness for C10 at a concrete input. -/
theorem build_generations_keys_contiguous_witness :
    ∃ k, 1 ≤ k ∧ k ≤ 3 ∧
      (build_generations [] [] "R2" 3).map Prod.fst = List.range' 1 k ∧
      ∀ pr ∈ build_generations [] [] "R2" 3, pr.2 ≠ [] :=
  build_generations_keys_contiguous [] [] "R2" 3 (by decide)

/-- C4 (counterexample): with both the birth and the death flag pending
(`1 BIRT` then `1 DEAT` before any `DATE`), the second `DATE` line is not
discarded — it is captured as `death_date` — contradicting the claim that a
second `DATE` before another `BIRT`/`DEAT` tag never sets the other date
field. -/
theorem second_date_sets_other_field :
    lookupA "I4" (parse_gedcom ["0 @I4@ INDI", "1 BIRT", "1 DEAT",
        "2 DATE 1 JAN 1900", "2 DATE 2 JAN 1900"]).people =
      some { id := "I4",
             events := { birth_date := some "1 JAN 1900",
                         death_date := some "2 JAN 1900" } } := by
  decide

/-- C4 (amended): while the other event flag is not pending, only the first
`DATE` line after a `BIRT` (respectively `DEAT`) tag is captured as
`birth_date` (respectively `death_date`), capture clears the flag, and a
second `DATE` line is discarded: it neither overwrites the captured date
nor touches any other event field. -/
theorem date_one_shot_capture (s : ParseState) (c : String) (p : Individual)
    (l1 l2 : String) (lv1 lv2 d1 d2 : List Char)
    (hty : s.current_type = some RecType.indi) (hcur : s.current = some c)
    (hp : lookupA c s.people = some p)
    (h1 : tokenizeLine l1 = [lv1, "DATE".data, d1])
    (hlv1 : ¬ ((⟨lv1⟩ : String) = "0"))
    (h2 : tokenizeLine l2 = [lv2, "DATE".data, d2])
    (hlv2 : ¬ ((⟨lv2⟩ : String) = "0")) :
    (s.in_birth = true → s.in_death = false →
      lookupA c (parseLinesFrom s [l1, l2]).people =
        some { p with events := { p.events with birth_date := some ⟨d1⟩ } }) ∧
    (s.in_birth = false → s.in_death = true →
      lookupA c (parseLinesFrom s [l1, l2]).people =
        some { p with events := { p.events with death_date := some ⟨d1⟩ } }) := by
  constructor
  · intro hb hd
    set s1 : ParseState :=
      { s with in_birth := false,
               people := (modifyA c
                 (fun q => { q with events := { q.events with birth_date := some ⟨d1⟩ } })
                 s.people) } with hs1
    have e1 : step s l1 = s1 := by
      rw [step_date_indi s c l1 lv1 d1 hty hcur h1 hlv1, if_pos hb]
    have hty1 : s1.current_type = some RecType.indi := by rw [hs1]; exact hty
    have hcur1 : s1.current = some c := by rw [hs1]; exact hcur
    have hb1 : s1.in_birth = false := by rw [hs1]
    have hd1 : s1.in_death = false := by rw [hs1]; exact hd
    have e2 : step s1 l2 = s1 := by
      rw [step_date_indi s1 c l2 lv2 d2 hty1 hcur1 h2 hlv2,
        if_neg (show ¬ (s1.in_birth = true) from by simp),
        if_neg (show ¬ (s1.in_death = true) from by simp [hd])]
    show lookupA c (step (step s l1) l2).people = _
    rw [e1, e2, hs1]
    rw [lookupA_modifyA, hp]
    rfl
  · intro hb hd
    set s1 : ParseState :=
      { s with in_death := false,
               people := (modifyA c
                 (fun q => { q with events := { q.events with death_date := some ⟨d1⟩ } })
                 s.people) } with hs1
    have e1 : step s l1 = s1 := by
      rw [step_date_indi s c l1 lv1 d1 hty hcur h1 hlv1,
        if_neg (show ¬ (s.in_birth = true) from by simp [hb]), if_pos hd]
    have hty1 : s1.current_type = some RecType.indi := by rw [hs1]; exact hty
    have hcur1 : s1.current = some c := by rw [hs1]; exact hcur
    have hb1 : s1.in_birth = false := by rw [hs1]; exact hb
    have hd1 : s1.in_death = false := by rw [hs1]
    have e2 : step s1 l2 = s1 := by
      rw [step_date_indi s1 c l2 lv2 d2 hty1 hcur1 h2 hlv2,
        if_neg (show ¬ (s1.in_birth = true) from by simp [hb]),
        if_neg (show ¬ (s1.in_death = true) from by simp)]
    show lookupA c (step (step s l1) l2).people = _
    rw [e1, e2, hs1]
    rw [lookupA_modifyA, hp]
    rfl

/-- Witness for C4 (amended) at a concrete input. -/
theorem date_one_shot_capture_witness :
    lookupA "I4" (parseLinesFrom (parse_gedcom ["0 @I4@ INDI", "1 BIRT"])
        ["2 DATE X", "2 DATE Y"]).people =
      some { id := "I4", events := { birth_date := some "X" } } := by
  have h := (date_one_shot_capture (parse_gedcom ["0 @I4@ INDI", "1 BIRT"]) "I4"
      { id := "I4" } "2 DATE X" "2 DATE Y" ['2'] ['2'] ['X'] ['Y']
      (by decide) (by decide) (by decide) (by decide) (by decide) (by decide)
      (by decide)).1 (by decide) (by decide)
  exact h

/-- C5: a `PLAC` line for an individual fills `birth_place` exactly when a
birth date is recorded and no birth place yet; otherwise it fills
`death_place` exactly when a death date is recorded and no death place
yet; in every other case the value is dropped and the people mapping is
unchanged. -/
theorem plac_fill_first_empty_slot (s : ParseState) (c : String) (p : Individual)
    (l : String) (lv d : List Char)
    (hty : s.current_type = some RecType.indi) (hcur : s.current = some c)
    (hp : lookupA c s.people = some p)
    (htok : tokenizeLine l = [lv, "PLAC".data, d])
    (hlv : ¬ ((⟨lv⟩ : String) = "0")) :
    (p.events.birth_date.isSome = true → p.events.birth_place = none →
      lookupA c (step s l).people =
        some { p with events := { p.events with birth_place := some ⟨d⟩ } }) ∧
    (¬ (p.events.birth_date.isSome = true ∧ p.events.birth_place = none) →
      p.events.death_date.isSome = true → p.events.death_place = none →
      lookupA c (step s l).people =
        some { p with events := { p.events with death_place := some ⟨d⟩ } }) ∧
    (¬ (p.events.birth_date.isSome = true ∧ p.events.birth_place = none) →
      ¬ (p.events.death_date.isSome = true ∧ p.events.death_place = none) →
      (step s l).people = s.people) := by
  have e := step_plac_indi s c l lv d hty hcur htok hlv
  refine ⟨?_, ?_, ?_⟩
  · intro hbd hbp
    rw [e, lookupA_modifyA, hp]
    show some (placIndi ⟨d⟩ p) = _
    unfold placIndi
    rw [if_pos ⟨hbd, hbp⟩]
  · intro hnb hdd hdp
    rw [e, lookupA_modifyA, hp]
    show some (placIndi ⟨d⟩ p) = _
    unfold placIndi
    rw [if_neg hnb, if_pos ⟨hdd, hdp⟩]
  · intro hnb hnd
    rw [e]
    show modifyA c (placIndi ⟨d⟩) s.people = s.people
    apply modifyA_eq_of_fix c _ _ p hp
    unfold placIndi
    rw [if_neg hnb, if_neg hnd]

/-- Witness for C5 at a concrete input. -/
theorem plac_fill_first_empty_slot_witness :
    lookupA "I7" (step (parse_gedcom ["0 @I7@ INDI", "1 BIRT", "2 DATE 1900"])
        "2 PLAC Paris").people =
      some { id := "I7",
             events := { birth_date := some "1900", birth_place := some "Paris" } } := by
  have h := (plac_fill_first_empty_slot
      (parse_gedcom ["0 @I7@ INDI", "1 BIRT", "2 DATE 1900"]) "I7"
      { id := "I7", events := { birth_date := some "1900" } } "2 PLAC Paris"
      ['2'] ("Paris".data)
      (by decide) (by decide) (by decide) (by decide) (by decide)).1
      (by decide) (by decide)
  exact h

/-- C8: identifier normalization round-trip — a wrapped identifier form `w`
opening a top-level Individual record is stored under the key
`clean_id w`, and the same form referenced by a family through `HUSB`,
`WIFE` or `CHIL` is stored as exactly `clean_id w`; hence any family
reference whose wrapped form also opens an Individual record resolves by
an identical key in the people mapping. -/
theorem id_normalization_round_trip (w : List Char) :
    (∀ ls line, line ∈ ls → tokenizeLine line = [['0'], w, "INDI".data] →
      startsWithChar ⟨w⟩ '@' = true →
      clean_id ⟨w⟩ ∈ keysA (parse_gedcom ls).people) ∧
    (∀ s c fam l lv, s.current_type = some RecType.fam → s.current = some c →
      lookupA c s.families = some fam →
      tokenizeLine l = [lv, "HUSB".data, w] → ¬ ((⟨lv⟩ : String) = "0") →
      lookupA c (step s l).families = some { fam with husb := clean_id ⟨w⟩ }) ∧
    (∀ s c fam l lv, s.current_type = some RecType.fam → s.current = some c →
      lookupA c s.families = some fam →
      tokenizeLine l = [lv, "WIFE".data, w] → ¬ ((⟨lv⟩ : String) = "0") →
      lookupA c (step s l).families = some { fam with wife := clean_id ⟨w⟩ }) ∧
    (∀ s c fam l lv, s.current_type = some RecType.fam → s.current = some c →
      lookupA c s.families = some fam →
      tokenizeLine l = [lv, "CHIL".data, w] → ¬ ((⟨lv⟩ : String) = "0") →
      lookupA c (step s l).families =
        some { fam with chil := fam.chil ++ [clean_id ⟨w⟩] }) := by
  refine ⟨?_, ?_, ?_, ?_⟩
  · intro ls line hm ht hs
    exact mem_keysA_parse_of_open ls {} line w hm ht hs
  · intro s c fam l lv hty hcur hfam ht hlv
    have e : step s l =
        { s with families := (modifyA c
            (fun f => { f with husb := clean_id ⟨w⟩ }) s.families) } := by
      rw [step_dispatch_fam s c l lv ("HUSB".data) [w] ht hlv hty hcur]
      exact handleFam_husb s c ⟨w⟩
    rw [e, lookupA_modifyA, hfam]
    rfl
  · intro s c fam l lv hty hcur hfam ht hlv
    have e : step s l =
        { s with families := (modifyA c
            (fun f => { f with wife := clean_id ⟨w⟩ }) s.families) } := by
      rw [step_dispatch_fam s c l lv ("WIFE".data) [w] ht hlv hty hcur]
      exact handleFam_wife s c ⟨w⟩
    rw [e, lookupA_modifyA, hfam]
    rfl
  · intro s c fam l lv hty hcur hfam ht hlv
    have e : step s l =
        { s with families := (modifyA c
            (fun f => { f with chil := f.chil ++ [clean_id ⟨w⟩] }) s.families) } := by
      rw [step_dispatch_fam s c l lv ("CHIL".data) [w] ht hlv hty hcur]
      exact handleFam_chil s c ⟨w⟩
    rw [e, lookupA_modifyA, hfam]
    rfl

/-- Witness for C8 at a concrete input. -/
theorem id_normalization_round_trip_witness :
    "I2" ∈ keysA (parse_gedcom ["0 @I2@ INDI"]).people := by
  have h := (id_normalization_round_trip ("@I2@".data)).1 ["0 @I2@ INDI"]
      "0 @I2@ INDI" (by decide) (by decide) (by decide)
  exact h

end Gedcom
